import Mathlib

/-!
Verification development for the `journal` structured-logging library and its
aggregation server.  The definitions below are shallow embeddings of the Go
source: pure functions become Lean functions, maps become association lists,
file contents become strings, and wall-clock inputs (today's date, generated
tokens, caller file/line) become explicit parameters.  Machine integers are
modelled as `Int`; none of the arithmetic involved approaches 64-bit bounds.

A few helpers of the repository are referenced by the sources but their
definitions are not part of the source tree (`extractCaller`, `getCleanKey`,
`parsedSums`, the share sorter).  Those are modelled from the specification
and carry a doc comment starting with `Modelled from the spec:`.
-/

/- ===================== Calendar core (Go time package) =====================

`rotationDate` uses Go's `time.AddDate`, `time.Weekday` and `Format`.
`time.Date` normalizes out-of-range months into years and out-of-range days
by day-count overflow into following months.  We model a civil date as an
`Int` triple (year, month, day) together with the proleptic-Gregorian
bijection between valid triples and day numbers (days since 1970-01-01):
`daysFromCivil` is the closed-form day number of a (month-normalized)
triple, and `civilFromDays` recovers the civil triple of a day number by
searching the year-of-era and month tables. -/

/-- Days from the start of an era (400-year cycle) to the start of
year-of-era `n`, for `0 ≤ n ≤ 399` (shifted years starting in March). -/
def dUY (n : Int) : Int := 365 * n + n / 4 - n / 100

/-- Days from March 1 to the start of shifted month `n` (0 = March). -/
def mS (n : Int) : Int := (153 * n + 2) / 5

/-- Gregorian leap-year predicate. -/
def isLeap (y : Int) : Prop := y % 4 = 0 ∧ (y % 100 ≠ 0 ∨ y % 400 = 0)

instance (y : Int) : Decidable (isLeap y) := by unfold isLeap; infer_instance

def daysInMonth (y m : Int) : Int :=
  if m = 2 then (if isLeap y then 29 else 28)
  else if m = 4 ∨ m = 6 ∨ m = 9 ∨ m = 11 then 30 else 31

/-- Day number (days since 1970-01-01) of a civil triple whose month is in
`[1, 12]`; linear in the day component, which is how `time.Date` absorbs
day overflow. -/
def daysFromCivil (y m d : Int) : Int :=
  let y2 : Int := if m ≤ 2 then y - 1 else y
  let era : Int := y2 / 400
  let yoe : Int := y2 - era * 400
  let mp : Int := if 2 < m then m - 3 else m + 9
  era * 146097 + dUY yoe + mS mp + (d - 1) - 719468

/-- Civil triple of a day number: inverse of `daysFromCivil` on valid
dates.  The year-of-era and the month are recovered by searching the
monotone tables `dUY` and `mS`. -/
def civilFromDays (z : Int) : Int × Int × Int :=
  let z2 : Int := z + 719468
  let era : Int := z2 / 146097
  let doe : Int := z2 - era * 146097
  let yoe : Nat := Nat.findGreatest (fun n => dUY n ≤ doe) 399
  let doy : Int := doe - dUY yoe
  let mp : Nat := Nat.findGreatest (fun n => mS n ≤ doy) 11
  let d : Int := doy - mS mp + 1
  let m : Int := if mp ≤ 9 then (mp : Int) + 3 else (mp : Int) - 9
  let y : Int := era * 400 + yoe + (if m ≤ 2 then 1 else 0)
  (y, m, d)

def ValidDate (y m d : Int) : Prop :=
  1 ≤ m ∧ m ≤ 12 ∧ 1 ≤ d ∧ d ≤ daysInMonth y m

instance (y m d : Int) : Decidable (ValidDate y m d) := by
  unfold ValidDate; infer_instance

/-- Length of shifted (March-based) month `mp` of the shifted year `y2`. -/
def shiftedLen (y2 mp : Int) : Int :=
  if mp = 11 then (if isLeap (y2 + 1) then 29 else 28) else mS (mp + 1) - mS mp

/- Rotation-frequency constants of the source. -/
def ROT_NONE : Int := 0
def ROT_DAILY : Int := 1
def ROT_WEEKLY : Int := 2
def ROT_MONTHLY : Int := 3
def ROT_ANNUALLY : Int := 4

/- Output-selection constants of the source. -/
def OUT_FILE : Int := 0
def OUT_STDOUT : Int := 1
def OUT_FILE_AND_STDOUT : Int := 2

/-- Month normalization performed by `time.Date`: month overflow carries
into the year. -/
def monthNorm (y m : Int) : Int × Int := (y + (m - 1) / 12, (m - 1) % 12 + 1)

/-- Go `time.AddDate`: add years, months and days componentwise, then
renormalize the civil date (months into years, then day overflow). -/
def addDate (t : Int × Int × Int) (ys ms ds : Int) : Int × Int × Int :=
  let n := monthNorm (t.1 + ys) (t.2.1 + ms)
  civilFromDays (daysFromCivil n.1 n.2 (t.2.2 + ds))

/-- Go `time.Weekday` of a civil date: 0 = Sunday (1970-01-01 was a
Thursday, day number 0). -/
def weekday (t : Int × Int × Int) : Int := (daysFromCivil t.1 t.2.1 t.2.2 + 4) % 7

def pad2 (n : Int) : String := if n < 10 then "0" ++ toString n else toString n

def pad4 (n : Int) : String :=
  if n < 0 then toString n
  else if n < 10 then "000" ++ toString n
  else if n < 100 then "00" ++ toString n
  else if n < 1000 then "0" ++ toString n
  else toString n

/-- Go layout `2006-01-02`. -/
def formatDate (t : Int × Int × Int) : String :=
  pad4 t.1 ++ "-" ++ pad2 t.2.1 ++ "-" ++ pad2 t.2.2

/-- Embedding of the source's `rotationDate(rotation, offset)`; `today` is
the wall-clock date the source reads via `time.Now()`. -/
def rotationDate (rotation offset : Int) (today : Int × Int × Int) : String :=
  let suffix := formatDate today
  if rotation = ROT_DAILY then
    formatDate (addDate today 0 0 offset)
  else if rotation = ROT_WEEKLY then
    let shift := addDate today 0 0 (offset * 7)
    if weekday shift = 0 then formatDate (addDate shift 0 0 (-6))
    else formatDate (addDate shift 0 0 (-(weekday shift - 1)))
  else if rotation = ROT_MONTHLY then
    let shift := addDate today 0 1 0
    pad4 shift.1 ++ "-" ++ pad2 shift.2.1 ++ "-01"
  else if rotation = ROT_ANNUALLY then
    let shift := addDate today 1 0 0
    pad4 shift.1 ++ "-01-01"
  else suffix

/-- Plain day-count shift of a civil date (the specification's
"today + k days"). -/
def addDays (t : Int × Int × Int) (n : Int) : Int × Int × Int :=
  civilFromDays (daysFromCivil t.1 t.2.1 t.2.2 + n)

/-- The specification's weekly snap: back to the preceding Monday, a Sunday
snapping back six days. -/
def snapToMonday (t : Int × Int × Int) : Int × Int × Int :=
  if weekday t = 0 then addDays t (-6) else addDays t (1 - weekday t)

/-- The specification's "first day of the month after today". -/
def firstOfNextMonth (t : Int × Int × Int) : Int × Int × Int :=
  if t.2.1 = 12 then (t.1 + 1, 1, 1) else (t.1, t.2.1 + 1, 1)

/- ===================== Log entries and sanitization =====================

A log entry is a map from column code (int64) to string, modelled as an
association list.  The correction pattern of the source is the character
class tab, newline, carriage return, backspace, form feed, vertical tab;
`ReplaceAllString` with a single-character class and a single-character
replacement is a character map. -/

def forbiddenChar (c : Char) : Bool :=
  c = '\t' || c = '\n' || c = '\r' || c = Char.ofNat 8 || c = Char.ofNat 12 || c = Char.ofNat 11

/-- One `correctionPattern.ReplaceAllString(s, " ")` pass. -/
def replaceForbidden (s : String) : String :=
  String.mk (s.data.map (fun c => if forbiddenChar c then ' ' else c))

/-- Per-value effect of `logEntry.correct`: an empty value becomes the
literal `N/A` first, then forbidden characters become spaces. -/
def sanitizeVal (s : String) : String :=
  replaceForbidden (if s = "" then "N/A" else s)

/-- The source's `correct`, applied to every value of the entry. -/
def correct (e : List (Int × String)) : List (Int × String) :=
  e.map (fun p => (p.1, sanitizeVal p.2))

/-- Go map indexing: a missing key yields the zero value, the empty string. -/
def lookupCol (e : List (Int × String)) (c : Int) : String :=
  (e.lookup c).getD ""

/-- The source's `logEntry.toStr`: one tab after every column value,
trailing tab preserved. -/
def toStr (e : List (Int × String)) (cols : List Int) : String :=
  cols.foldl (fun msg c => msg ++ lookupCol e c ++ "\t") ""

/-- The source's `colname`. -/
def colname (col : Int) : String :=
  if col = 0 then "Date"
  else if col = 1 then "Date"
  else if col = 2 then "Date"
  else if col = 3 then "Date"
  else if col = 4 then "Service"
  else if col = 5 then "Instance"
  else if col = 6 then "Caller"
  else if col = 7 then "Type"
  else if col = 8 then "Type_INT"
  else if col = 9 then "Type_STR"
  else if col = 10 then "Message"
  else if col = 11 then "File"
  else if col = 12 then "Line"
  else "Unknown"

/-- The JSON object built by the source's `toJSON` before marshaling
(the marshal error is silently discarded in the source); keys are the
friendly column names. -/
def toJSONPairs (e : List (Int × String)) (cols : List Int) : List (String × String) :=
  cols.map (fun c => (colname c, lookupCol e c))

/-- The source's `defaultCols`. -/
def defaultCols : List Int := [2, 4, 5, 7, 8, 9, 10, 11, 12]

/- ===================== Message codes ===================== -/

/-- The source's `Code`: `Error bool; Type string` (the `Type` field is
renamed `typeStr`, `Type` not being a usable Lean field name). -/
structure Code where
  error : Bool
  typeStr : String
deriving DecidableEq, Repr

set_option maxHeartbeats 1000000 in
/-- The source's `defaultCodes` table, in full. -/
def defaultCodes : List (Int × Code) := [
  (0, ⟨false, "Notification"⟩),
  (1, ⟨true, "GeneralError"⟩),
  (2, ⟨true, "ConfigurationError"⟩),
  (3, ⟨true, "FailedAction"⟩),
  (4, ⟨true, "UserError"⟩),
  (10, ⟨true, "CatastrophicFailure"⟩),
  (100, ⟨false, "HTTP-StatusContinue"⟩),
  (101, ⟨false, "HTTP-StatusSwitchingProtocols"⟩),
  (102, ⟨false, "HTTP-StatusProcessing"⟩),
  (200, ⟨false, "HTTP-StatusOK"⟩),
  (201, ⟨false, "HTTP-StatusCreated"⟩),
  (202, ⟨false, "HTTP-StatusAccepted"⟩),
  (203, ⟨false, "HTTP-StatusNonAuthoritativeInfo"⟩),
  (204, ⟨false, "HTTP-StatusNoContent"⟩),
  (205, ⟨false, "HTTP-StatusResetContent"⟩),
  (206, ⟨false, "HTTP-StatusPartialContent"⟩),
  (207, ⟨false, "HTTP-StatusMultiStatus"⟩),
  (208, ⟨false, "HTTP-StatusAlreadyReported"⟩),
  (226, ⟨false, "HTTP-StatusIMUsed"⟩),
  (300, ⟨false, "HTTP-StatusMultipleChoices"⟩),
  (301, ⟨false, "HTTP-StatusMovedPermanently"⟩),
  (302, ⟨false, "HTTP-StatusFound"⟩),
  (303, ⟨false, "HTTP-StatusSeeOther"⟩),
  (304, ⟨false, "HTTP-StatusNotModified"⟩),
  (305, ⟨false, "HTTP-StatusUseProxy"⟩),
  (307, ⟨false, "HTTP-StatusTemporaryRedirect"⟩),
  (308, ⟨false, "HTTP-StatusPermanentRedirect"⟩),
  (400, ⟨true, "HTTP-StatusBadRequest"⟩),
  (401, ⟨true, "HTTP-StatusUnauthorized"⟩),
  (402, ⟨true, "HTTP-StatusPaymentRequired"⟩),
  (403, ⟨true, "HTTP-StatusForbidden"⟩),
  (404, ⟨true, "HTTP-StatusNotFound"⟩),
  (405, ⟨true, "HTTP-StatusMethodNotAllowed"⟩),
  (406, ⟨true, "HTTP-StatusNotAcceptable"⟩),
  (407, ⟨true, "HTTP-StatusProxyAuthRequired"⟩),
  (408, ⟨true, "HTTP-StatusRequestTimeout"⟩),
  (409, ⟨true, "HTTP-StatusConflict"⟩),
  (410, ⟨true, "HTTP-StatusGone"⟩),
  (411, ⟨true, "HTTP-StatusLengthRequired"⟩),
  (412, ⟨true, "HTTP-StatusPreconditionFailed"⟩),
  (413, ⟨true, "HTTP-StatusRequestEntityTooLarge"⟩),
  (414, ⟨true, "HTTP-StatusRequestURITooLong"⟩),
  (415, ⟨true, "HTTP-StatusUnsupportedMediaType"⟩),
  (416, ⟨true, "HTTP-StatusRequestedRangeNotSatisfiable"⟩),
  (417, ⟨true, "HTTP-StatusExpectationFailed"⟩),
  (418, ⟨true, "HTTP-StatusTeapot"⟩),
  (422, ⟨true, "HTTP-StatusUnprocessableEntity"⟩),
  (423, ⟨true, "HTTP-StatusLocked"⟩),
  (424, ⟨true, "HTTP-StatusFailedDependency"⟩),
  (426, ⟨true, "HTTP-StatusUpgradeRequired"⟩),
  (428, ⟨true, "HTTP-StatusPreconditionRequired"⟩),
  (429, ⟨true, "HTTP-StatusTooManyRequests"⟩),
  (431, ⟨true, "HTTP-StatusRequestHeaderFieldsTooLarge"⟩),
  (451, ⟨true, "HTTP-StatusUnavailableForLegalReasons"⟩),
  (500, ⟨true, "HTTP-StatusInternalServerError"⟩),
  (501, ⟨true, "HTTP-StatusNotImplemented"⟩),
  (502, ⟨true, "HTTP-StatusBadGateway"⟩),
  (503, ⟨true, "HTTP-StatusServiceUnavailable"⟩),
  (504, ⟨true, "HTTP-StatusGatewayTimeout"⟩),
  (505, ⟨true, "HTTP-StatusHTTPVersionNotSupported"⟩),
  (506, ⟨true, "HTTP-StatusVariantAlsoNegotiates"⟩),
  (507, ⟨true, "HTTP-StatusInsufficientStorage"⟩),
  (508, ⟨true, "HTTP-StatusLoopDetected"⟩),
  (510, ⟨true, "HTTP-StatusNotExtended"⟩),
  (511, ⟨true, "HTTP-StatusNetworkAuthenticationRequired"⟩),
  (999, ⟨true, "Exception/Unintended"⟩)]

/-- The source's `getMsgCode`, parameterized by the logger's codes table;
note the literal `"UNKOWN"` of the source. -/
def getMsgCode (codes : List (Int × Code)) (code : Int) : String × Bool :=
  match codes.lookup code with
  | none => ("UNKOWN", true)
  | some resp => (resp.typeStr, resp.error)

/-- The seven (code, name, error-flag) rows the specification names
explicitly in its default-code table. -/
def specNamedCodes : List (Int × String × Bool) := [
  (0, "Notification", false),
  (1, "GeneralError", true),
  (2, "ConfigurationError", true),
  (3, "FailedAction", true),
  (4, "UserError", true),
  (10, "CatastrophicFailure", true),
  (999, "Exception/Unintended", true)]

/- ===================== pushToLedger (Log / LogFields) =====================

`Log`, `LogFields`, `NewCaller*` delegate to `pushToLedger`.  The formatted
message `fmsg` (Sprintf of msg and args, or the marshalled JSON fields) and
the runtime context (timestamps, caller file and line, configured service
and instance) enter as parameters. -/

structure LogCtx where
  dateYMD : String
  dateHMS : String
  dateNano : String
  unixTS : String
  service : String
  instanceName : String
  file : String
  line : Int
deriving DecidableEq, Repr

structure PushResult where
  entry : List (Int × String)
  submitted : Bool
  err : Option String
deriving DecidableEq, Repr

/-- The source's `pushToLedger`: builds the entry over columns 0..12,
submits it to the ledger channel when the logger is active, and returns a
non-nil error carrying the formatted message exactly when the resolved
code's error flag is set. -/
def pushToLedger (active : Bool) (codes : List (Int × Code)) (ctx : LogCtx)
    (caller : String) (code : Int) (fmsg : String) : PushResult :=
  let name := (getMsgCode codes code).1
  let isErr := (getMsgCode codes code).2
  { entry := [(0, ctx.dateYMD), (1, ctx.dateHMS), (2, ctx.dateNano), (3, ctx.unixTS),
      (4, ctx.service), (5, ctx.instanceName), (6, caller),
      (7, if isErr then "ERR" else "MSG"), (8, toString code), (9, name),
      (10, fmsg), (11, ctx.file), (12, toString ctx.line)],
    submitted := active,
    err := if isErr then some fmsg else none }

/- ===================== RawEntry ===================== -/

structure RawResult where
  err : Option String
  submitted : Bool
deriving DecidableEq, Repr

/-- The source's `RawEntry`: validates that every column of `defaultCols`
is present (returning the first "missing column" error otherwise), then
submits the entry when the logger is active. -/
def RawEntry (active : Bool) (entry : List (Int × String)) : RawResult :=
  match defaultCols.find? (fun c => (entry.lookup c).isNone) with
  | some c => { err := some ("RawEntry: missing column '" ++ toString c ++ "'"), submitted := false }
  | none => { err := none, submitted := active }

/- ===================== The writer task, per entry ===================== -/

structure WriterState where
  hasStdout : Bool
  hasLogfile : Bool
  json : Bool
  cols : List Int
deriving DecidableEq, Repr

structure WriteOut where
  stdoutLine : Option String
  fileTabLine : Option String
  fileJSONObj : Option (List (String × String))
deriving DecidableEq, Repr

/-- One iteration of the source's `write` loop for one ledger entry: the
stdout sink receives the tab form, the file sink the JSON or tab form per
config, each with a trailing newline.  The entry is serialized exactly as
it sits in the ledger. -/
def writeEntry (w : WriterState) (entry : List (Int × String)) : WriteOut :=
  { stdoutLine := if w.hasStdout then some (toStr entry w.cols ++ "\n") else none,
    fileTabLine := if w.hasLogfile && !w.json then some (toStr entry w.cols ++ "\n") else none,
    fileJSONObj := if w.hasLogfile && w.json then some (toJSONPairs entry w.cols) else none }

/- ===================== Ingress authenticator ===================== -/

/-- Embedding of strings.ToLower at the character level (the keys in play
are ASCII; Go performs the same mapping on them). -/
def strLower (s : String) : String := String.mk (s.data.map Char.toLower)

/-- Embedding of strings.TrimSpace: drop leading and trailing whitespace. -/
def strTrim (s : String) : String :=
  String.mk (((s.data.dropWhile (fun c => c.isWhitespace)).reverse.dropWhile
    (fun c => c.isWhitespace)).reverse)

structure Caller where
  service : String
  instanceName : String
  key : String
  token : String
  ip : String
deriving DecidableEq, Repr

/-- One-value metadata access: gRPC metadata maps a key to a list of
values; a field counts as present when it carries exactly one value. -/
def mdGetOne (md : List (String × List String)) (field : String) : Option String :=
  match md.lookup field with
  | some [v] => some v
  | _ => none

/-- Modelled from the spec: `extractCaller` is referenced by `Authorize`
and `RemoteLog` but its definition is not in the source tree.  Per §4.8 it
expects a metadata bag with keys service, instance, token, ip, each present
exactly once, and derives the key `lowercase(service)/lowercase(instance)`;
it fails with a distinguishable message when the bag is missing or a field
is absent. -/
def extractCaller (md : Option (List (String × List String))) : Except String Caller :=
  match md with
  | none => .error "missing metadata"
  | some bag =>
    match mdGetOne bag "service", mdGetOne bag "instance",
        mdGetOne bag "token", mdGetOne bag "ip" with
    | some s, some i, some t, some p =>
        .ok { service := s, instanceName := i,
              key := strLower s ++ "/" ++ strLower i, token := t, ip := p }
    | none, _, _, _ => .error "missing field service"
    | _, none, _, _ => .error "missing field instance"
    | _, _, none, _ => .error "missing field token"
    | _, _, _, none => .error "missing field ip"

/-- The source's `Authorize` interceptor: `none` is authorization success,
`some e` the error returned to the RPC layer. -/
def Authorize (tokens : List (String × String))
    (md : Option (List (String × List String))) : Option String :=
  match extractCaller md with
  | .error e => some ("Authorize: cannot extract caller credentials :" ++ e)
  | .ok c =>
    match tokens.lookup c.key with
    | none => some "Authorize: unknown service/instance"
    | some realToken => if realToken = c.token then none else some "Authorize: bad token"

/- ===================== Token store ===================== -/

/-- Token-store state: the in-memory map and the raw contents of the
on-disk token file. -/
structure TokenStore where
  tokens : List (String × String)
  file : String
deriving DecidableEq, Repr

/-- Modelled from the spec: `getCleanKey` is referenced by the token
functions but not defined in the source tree; per §3 keys are the
lowercased-and-trimmed `service/instance`. -/
def getCleanKey (service instanceName : String) : String :=
  strLower (strTrim service) ++ "/" ++ strLower (strTrim instanceName)

/-- The source's `writeTokenToFile`: appends one `key<TAB>token` line. -/
def writeTokenToFile (st : TokenStore) (key token : String) : TokenStore :=
  { st with file := st.file ++ key ++ "\t" ++ token ++ "\n" }

/-- Overwrite `s` into `content` starting at byte offset `pos`, without
truncating — the semantics of `WriteString` on an open file descriptor. -/
def overwriteAt (content : String) (pos : Nat) (s : String) : String :=
  String.mk (content.data.take pos ++ s.data ++ content.data.drop (pos + s.data.length))

/-- The source's `removeTokenFromFile`.  The file is opened with
`O_RDONLY|O_WRONLY`, which is `O_WRONLY` (the flags are 0 and 1), so every
`Scanner.Scan` read fails and the retained-lines list stays empty; the
file position is still 0 when `WriteString` writes the empty join, and the
file is never truncated.  Net effect: the file contents are unchanged. -/
def removeTokenFromFile (st : TokenStore) (key : String) : TokenStore :=
  let retained : List String := []
  { st with file := overwriteAt st.file 0 (String.intercalate "\n" retained) }

/-- The source's `AddToken`; the freshly generated random token enters as
the oracle parameter `token` (SHA-256 of 32 random bytes in the source). -/
def AddToken (st : TokenStore) (service instanceName token : String) :
    Except String (String × TokenStore) :=
  let key := getCleanKey service instanceName
  if (st.tokens.lookup key).isSome then
    .error ("AddToken: token for " ++ key ++ " already exists")
  else
    let st2 := writeTokenToFile st key token
    .ok (token, { st2 with tokens := st2.tokens ++ [(key, token)] })

/-- The source's `RemoveToken`: fails when the key is absent, otherwise
rewrites the file via `removeTokenFromFile` and deletes the in-memory
entry. -/
def RemoveToken (st : TokenStore) (service instanceName : String) :
    Except String TokenStore :=
  let key := getCleanKey service instanceName
  if (st.tokens.lookup key).isSome then
    let st2 := removeTokenFromFile st key
    .ok { st2 with tokens := st2.tokens.filter (fun p => p.1 ≠ key) }
  else .error "RemoveToken: no such service/instance"

/- ===================== Statistics aggregation ===================== -/

structure Statistic where
  service : String
  instanceName : String
  logsParsed : List Int
  logsParsedBytes : List Int
deriving DecidableEq, Repr

/-- The aggregate row of `server_statistics.go`; the float64 share is
modelled as a rational. -/
structure AggregateStatistics where
  service : String
  instances : Int
  volume : Int
  logs : Int
  share : ℚ
deriving DecidableEq, Repr

def emptyAggregate (service : String) : AggregateStatistics :=
  { service := service, instances := 0, volume := 0, logs := 0, share := 0 }

/-- Modelled from the spec: `parsedSums` is referenced but not defined in
the source tree; per §4.7 it sums logs and bytes over the 24 hourly
buckets into `(plogs, pbytes)` (only those two of its four results are
used by the aggregation). -/
def parsedSums (logs bytes : List Int) : Int × Int :=
  (logs.foldl (· + ·) 0, bytes.foldl (· + ·) 0)

/-- One accumulation step of the aggregation loop over the statistics
records (iteration order of the Go map fixed as the list order). -/
def aggStep (acc : Int × List String × List (String × AggregateStatistics))
    (kv : String × Statistic) : Int × List String × List (String × AggregateStatistics) :=
  let st := kv.2
  let ps := parsedSums st.logsParsed st.logsParsedBytes
  let seen := (acc.2.2.lookup st.service).isSome
  let names := if seen then acc.2.1 else acc.2.1 ++ [st.service]
  let amap := if seen then acc.2.2 else acc.2.2 ++ [(st.service, emptyAggregate st.service)]
  let amap2 := amap.map (fun p =>
    if p.1 = st.service then
      (p.1, { p.2 with instances := p.2.instances + 1, logs := p.2.logs + ps.1, volume := p.2.volume + ps.2 })
    else p)
  (acc.1 + ps.2, names, amap2)

/-- The source's `AggregateServiceStatistics`, minus the hourly table
(untouched by the ordering claim): aggregates per service and computes the
shares.  The source then sorts a copy of the share list with `floatSorter`
(absent from the source tree) but its final loop reads only the LENGTH of
the permutation — `for i := range shareSort.GetIndexes()` indexes
`serviceNames` by the loop counter `i`, not by the permutation — so the
sort has no observable effect and the loop is embedded as a map over the
positions `0 .. len(shares)-1` in iteration order. -/
def AggregateServiceStatistics (stats : List (String × Statistic)) :
    Int × List AggregateStatistics :=
  let folded := stats.foldl aggStep (0, [], [])
  let totalLogVolume := folded.1
  let serviceNames := folded.2.1
  let amapS := folded.2.2.map (fun p =>
    (p.1, { p.2 with share := (p.2.volume : ℚ) / (totalLogVolume : ℚ) }))
  let shares := serviceNames.map (fun n => ((amapS.lookup n).getD (emptyAggregate "")).share)
  let aggro := (List.range shares.length).map (fun i =>
    (amapS.lookup (serviceNames.getD i "")).getD (emptyAggregate ""))
  (totalLogVolume, aggro)

/- ===================== Shared default-codes map (UseCustomCodes) =====================

Go maps are reference values.  The heap of codes maps allocated by the
package is modelled explicitly: a list of cells, a map value is a cell
index.  The package-level `defaultCodes` lives in cell 0, and `New` stores
that reference into the logger (`codes: defaultCodes` copies the
reference, not the table). -/

structure CodesHeap where
  cells : List (List (Int × Code))
deriving Repr

def defaultCodesRef : Nat := 0

/-- The process heap at startup: the one package-level codes table. -/
def initialCodesHeap : CodesHeap := ⟨[defaultCodes]⟩

structure JLogger where
  codesRef : Nat
deriving DecidableEq, Repr

/-- The `codes: defaultCodes` line of `journal.New`: the new logger holds
a reference to the shared table; no table is copied or allocated. -/
def journalNew (h : CodesHeap) : JLogger × CodesHeap := (⟨defaultCodesRef⟩, h)

def heapRead (h : CodesHeap) (r : Nat) : List (Int × Code) := h.cells.getD r []

def heapWrite (h : CodesHeap) (r : Nat) (m : List (Int × Code)) : CodesHeap :=
  ⟨h.cells.set r m⟩

/-- Go `m[k] = v` on an association list: replace in place, or append. -/
def setCode (m : List (Int × Code)) (k : Int) (v : Code) : List (Int × Code) :=
  if (m.lookup k).isSome then m.map (fun p => if p.1 = k then (k, v) else p)
  else m ++ [(k, v)]

/-- The source's `UseCustomCodes`: mutates the referenced codes table in
place, for codes in the open interval (1, 999) only. -/
def UseCustomCodes (h : CodesHeap) (l : JLogger) (cs : List (Int × Code)) : CodesHeap :=
  heapWrite h l.codesRef
    (cs.foldl (fun m kv => if 1 < kv.1 ∧ kv.1 < 999 then setCode m kv.1 kv.2 else m)
      (heapRead h l.codesRef))

/-- Code resolution by a logger reads the table through its reference. -/
def getMsgCodeOf (h : CodesHeap) (l : JLogger) (code : Int) : String × Bool :=
  getMsgCode (heapRead h l.codesRef) code

instance exceptDecEq {e a : Type} [DecidableEq e] [DecidableEq a] :
    DecidableEq (Except e a) := fun x y => by
  cases x <;> cases y
  case error.error u v => exact decidable_of_iff (u = v) (by simp)
  case error.ok u v => exact isFalse (by simp)
  case ok.error u v => exact isFalse (by simp)
  case ok.ok u v => exact decidable_of_iff (u = v) (by simp)

/- ===================== Concrete fixtures for evaluation ===================== -/

/-- A concrete runtime context for evaluating `pushToLedger`. -/
def demoCtx : LogCtx :=
  ⟨"2025-10-11", "2025-10-11 10:00:00", "2025-10-11 10:00:00.000000000",
   "1760000000", "svc", "inst", "main.go", 42⟩

/-- An entry carrying all nine default columns but no caller column (6). -/
def e9 : List (Int × String) :=
  [(2, "t"), (4, "s"), (5, "i"), (7, "MSG"), (8, "0"), (9, "Notification"),
   (10, "m"), (11, "f"), (12, "1")]

/-- An entry missing default column 4 (service). -/
def eMiss : List (Int × String) := [(2, "t")]

/-- An entry whose message value carries a raw tab. -/
def eTab : List (Int × String) := [(10, "a\tb")]

/-- Service a, one instance, 100 bytes over the day. -/
def statA : Statistic :=
  ⟨"a", "1", (List.replicate 24 0).set 1 1, (List.replicate 24 0).set 1 100⟩

/-- Service b, one instance, 300 bytes over the day. -/
def statB : Statistic :=
  ⟨"b", "1", (List.replicate 24 0).set 2 3, (List.replicate 24 0).set 2 300⟩

/-- Two services with distinct shares 1/4 and 3/4; the smaller share comes
first in iteration order. -/
def demoStats : List (String × Statistic) := [("a/1", statA), ("b/1", statB)]

/- ===================== Calendar lemmas ===================== -/

theorem dUY_mono {a b : Int} (h : a ≤ b) : dUY a ≤ dUY b := by
  unfold dUY; omega

theorem mS_mono {a b : Int} (h : a ≤ b) : mS a ≤ mS b := by
  unfold mS; omega

/-- Core lemma: converting a valid shifted-calendar date to a day number and
back recovers the civil triple. -/
theorem civil_core (y2 mp d : Int) (hmp0 : 0 ≤ mp) (hmp1 : mp ≤ 11)
    (hd1 : 1 ≤ d) (hd2 : d ≤ shiftedLen y2 mp) :
    civilFromDays ((y2 / 400) * 146097 + dUY (y2 - (y2 / 400) * 400) + mS mp + (d - 1) - 719468)
      = (y2 + (if 9 < mp then 1 else 0), (if mp ≤ 9 then mp + 3 else mp - 9), d) := by
  set era : Int := y2 / 400 with hera
  set yoe : Int := y2 - era * 400 with hyoe
  have hyoeb : 0 ≤ yoe ∧ yoe ≤ 399 := by omega
  set doy : Int := mS mp + (d - 1) with hdoy
  have hdoylb : 0 ≤ doy := by
    have : (0:Int) ≤ mS mp := by unfold mS; omega
    omega
  -- leap bit on yoe
  have hleapbit : isLeap (y2 + 1) ↔ ((yoe + 1) % 4 = 0 ∧ ((yoe + 1) % 100 ≠ 0 ∨ yoe = 399)) := by
    unfold isLeap; omega
  have hdoyub : doy ≤ 364 + (if (yoe + 1) % 4 = 0 ∧ ((yoe + 1) % 100 ≠ 0 ∨ yoe = 399) then 1 else 0) := by
    rcases eq_or_lt_of_le hmp1 with hmp11 | hmp10
    · -- mp = 11 : February of civil year y2+1
      have hlen : shiftedLen y2 mp = if isLeap (y2 + 1) then 29 else 28 := by
        rw [hmp11]; unfold shiftedLen; rw [if_pos rfl]
      rw [hlen] at hd2
      have hms : mS mp = 337 := by rw [hmp11]; unfold mS; omega
      by_cases hL : isLeap (y2 + 1)
      · rw [if_pos hL] at hd2
        rw [if_pos (hleapbit.mp hL)]
        omega
      · rw [if_neg hL] at hd2
        have hnotL : ¬ ((yoe + 1) % 4 = 0 ∧ ((yoe + 1) % 100 ≠ 0 ∨ yoe = 399)) :=
          fun hc => hL (hleapbit.mpr hc)
        rw [if_neg hnotL]
        omega
    · -- mp ≤ 10 : fixed-length months
      have hmp10' : mp ≤ 10 := by omega
      unfold shiftedLen at hd2
      rw [if_neg (by omega : ¬ mp = 11)] at hd2
      have : doy ≤ mS (mp + 1) - 1 := by omega
      have h11 : mS (mp + 1) ≤ mS 11 := mS_mono (by omega)
      have : mS 11 = 337 := by unfold mS; omega
      split <;> omega
  -- day-of-era and its bounds
  set doe : Int := dUY yoe + doy with hdoe
  have hdUYlb : 0 ≤ dUY yoe := by unfold dUY; omega
  have hdoeub : doe ≤ 146096 := by
    rcases eq_or_lt_of_le hyoeb.2 with h399 | hlt
    · have : dUY yoe = 145731 := by rw [h399]; unfold dUY; omega
      split at hdoyub <;> omega
    · have hstep : dUY (yoe + 1) = dUY yoe + 365 +
          (if (yoe + 1) % 4 = 0 ∧ (yoe + 1) % 100 ≠ 0 then 1 else 0) := by
        unfold dUY; split <;> omega
      have h399 : dUY (yoe + 1) ≤ dUY 399 := dUY_mono (by omega)
      have : dUY 399 = 145731 := by unfold dUY; omega
      have hne : ¬ yoe = 399 := by omega
      split at hdoyub <;> split at hstep <;> omega
  -- unfold the target
  unfold civilFromDays
  simp only []
  have hz2 : era * 146097 + dUY yoe + mS mp + (d - 1) - 719468 + 719468 = era * 146097 + doe := by
    omega
  rw [hz2]
  have herarec : (era * 146097 + doe) / 146097 = era := by omega
  rw [herarec]
  have hdoerec : era * 146097 + doe - era * 146097 = doe := by omega
  rw [hdoerec]
  -- recover yoe
  have hyoerec : Nat.findGreatest (fun n => dUY n ≤ doe) 399 = yoe.toNat := by
    rw [Nat.findGreatest_eq_iff]
    refine ⟨by omega, fun _ => ?_, fun n hn1 hn2 => ?_⟩
    · show dUY (yoe.toNat : Int) ≤ doe
      have : (yoe.toNat : Int) = yoe := by omega
      rw [this]; omega
    · show ¬ dUY (n : Int) ≤ doe
      have hyoe399 : yoe ≤ 398 := by omega
      have hstep : dUY (yoe + 1) = dUY yoe + 365 +
          (if (yoe + 1) % 4 = 0 ∧ (yoe + 1) % 100 ≠ 0 then 1 else 0) := by
        unfold dUY; split <;> omega
      have hmono : dUY (yoe + 1) ≤ dUY (n : Int) := dUY_mono (by omega)
      have hne : ¬ yoe = 399 := by omega
      split at hdoyub <;> split at hstep <;> omega
  rw [hyoerec]
  have hcast : ((yoe.toNat : Int)) = yoe := by omega
  rw [hcast]
  have hdoyrec : doe - dUY yoe = doy := by omega
  rw [hdoyrec]
  -- recover mp
  have hmprec : Nat.findGreatest (fun n => mS n ≤ doy) 11 = mp.toNat := by
    rw [Nat.findGreatest_eq_iff]
    refine ⟨by omega, fun _ => ?_, fun n hn1 hn2 => ?_⟩
    · show mS (mp.toNat : Int) ≤ doy
      have : (mp.toNat : Int) = mp := by omega
      rw [this]; omega
    · show ¬ mS (n : Int) ≤ doy
      have hmp10 : mp ≤ 10 := by omega
      unfold shiftedLen at hd2
      rw [if_neg (by omega : ¬ mp = 11)] at hd2
      have hmono : mS (mp + 1) ≤ mS (n : Int) := mS_mono (by omega)
      omega
  rw [hmprec]
  have hcast2 : ((mp.toNat : Int)) = mp := by omega
  rw [hcast2]
  -- assemble
  have hd : doy - mS mp + 1 = d := by omega
  rw [hd]
  simp only [show (mp.toNat ≤ 9 ↔ mp ≤ 9) from by omega]
  rcases le_or_lt mp 9 with hmp9 | hmp9
  · have e1 : (if mp ≤ 9 then mp + 3 else mp - 9) = mp + 3 := if_pos hmp9
    have e2 : (if (9:Int) < mp then (1:Int) else 0) = 0 := if_neg (by omega)
    rw [e1, e2]
    have e3 : (if mp + 3 ≤ 2 then (1:Int) else 0) = 0 := if_neg (by omega)
    rw [e3]
    have e4 : era * 400 + yoe + 0 = y2 + 0 := by omega
    rw [e4]
  · have e1 : (if mp ≤ 9 then mp + 3 else mp - 9) = mp - 9 := if_neg (by omega)
    have e2 : (if (9:Int) < mp then (1:Int) else 0) = 1 := if_pos hmp9
    rw [e1, e2]
    have e3 : (if mp - 9 ≤ 2 then (1:Int) else 0) = 1 := if_pos (by omega)
    rw [e3]
    have e4 : era * 400 + yoe + 1 = y2 + 1 := by omega
    rw [e4]

/-- Roundtrip for valid civil dates. -/
theorem civil_roundtrip {y m d : Int} (h : ValidDate y m d) :
    civilFromDays (daysFromCivil y m d) = (y, m, d) := by
  obtain ⟨hm1, hm2, hd1, hd2⟩ := h
  unfold daysFromCivil
  rcases le_or_lt m 2 with hmc | hmc
  · rw [if_pos hmc, if_neg (by omega : ¬ 2 < m)]
    have hlen : d ≤ shiftedLen (y - 1) (m + 9) := by
      interval_cases m
      · unfold daysInMonth at hd2
        norm_num at hd2
        unfold shiftedLen mS
        norm_num
        omega
      · unfold daysInMonth at hd2
        norm_num at hd2
        unfold shiftedLen
        norm_num
        unfold isLeap at hd2 ⊢
        exact hd2
    have hcore := civil_core (y - 1) (m + 9) d (by omega) (by omega) hd1 hlen
    rw [hcore]
    have e1 : (if (9:Int) < m + 9 then (1:Int) else 0) = 1 := if_pos (by omega)
    have e2 : (if m + 9 ≤ 9 then m + 9 + 3 else m + 9 - 9) = m + 9 - 9 := if_neg (by omega)
    rw [e1, e2]
    simp only [Prod.mk.injEq]
    refine ⟨by omega, by omega, trivial⟩
  · rw [if_neg (by omega : ¬ m ≤ 2), if_pos hmc]
    have hlen : d ≤ shiftedLen y (m - 3) := by
      interval_cases m <;>
        (unfold daysInMonth at hd2; norm_num at hd2; unfold shiftedLen mS; norm_num; omega)
    have hcore := civil_core y (m - 3) d (by omega) (by omega) hd1 hlen
    rw [hcore]
    have e1 : (if (9:Int) < m - 3 then (1:Int) else 0) = 0 := if_neg (by omega)
    have e2 : (if m - 3 ≤ 9 then m - 3 + 3 else m - 3 - 9) = m - 3 + 3 := if_pos (by omega)
    rw [e1, e2]
    simp only [Prod.mk.injEq]
    refine ⟨by omega, by omega, trivial⟩

theorem daysFromCivil_day_shift (y m d ds : Int) :
    daysFromCivil y m (d + ds) = daysFromCivil y m d + ds := by
  unfold daysFromCivil
  simp only []
  rcases le_or_lt m 2 with hm | hm
  · rw [if_pos hm, if_neg (by omega : ¬ 2 < m)]; omega
  · rw [if_neg (by omega : ¬ m ≤ 2), if_pos hm]; omega

theorem monthNorm_id {y m : Int} (h1 : 1 ≤ m) (h2 : m ≤ 12) : monthNorm y m = (y, m) := by
  unfold monthNorm
  simp only [Prod.mk.injEq]
  constructor <;> omega

theorem civilFromDays_m_bounds (z : Int) :
    1 ≤ (civilFromDays z).2.1 ∧ (civilFromDays z).2.1 ≤ 12 := by
  unfold civilFromDays
  simp only []
  set mp := Nat.findGreatest (fun n => mS n ≤ z + 719468 - (z + 719468) / 146097 * 146097 -
    dUY ↑(Nat.findGreatest (fun n => dUY ↑n ≤ z + 719468 - (z + 719468) / 146097 * 146097) 399)) 11 with hmp
  have hb : mp ≤ 11 := Nat.findGreatest_le 11
  rcases le_or_lt mp 9 with h9 | h9
  · rw [if_pos h9]
    constructor
    · show (1:Int) ≤ (mp : Int) + 3
      omega
    · show ((mp : Int) + 3) ≤ 12
      omega
  · rw [if_neg (by omega)]
    constructor
    · show (1:Int) ≤ (mp : Int) - 9
      omega
    · show ((mp : Int) - 9) ≤ 12
      omega

theorem addDate_days (t : Int × Int × Int) (ds : Int)
    (h1 : 1 ≤ t.2.1) (h2 : t.2.1 ≤ 12) :
    addDate t 0 0 ds = civilFromDays (daysFromCivil t.1 t.2.1 t.2.2 + ds) := by
  unfold addDate
  rw [show t.1 + 0 = t.1 from by omega, show t.2.1 + 0 = t.2.1 from by omega,
    monthNorm_id h1 h2]
  show civilFromDays (daysFromCivil t.1 t.2.1 (t.2.2 + ds)) = _
  rw [daysFromCivil_day_shift]

theorem daysFromCivil_feb29 {y : Int} (h : ¬ isLeap y) :
    daysFromCivil y 2 29 = daysFromCivil y 3 1 := by
  unfold daysFromCivil dUY mS isLeap at *
  simp only []
  rw [if_pos (by omega : (2:Int) ≤ 2), if_neg (by omega : ¬ (2:Int) < 2),
    if_neg (by omega : ¬ (3:Int) ≤ 2), if_pos (by omega : (2:Int) < 3)]
  omega

theorem addDate_month {y m d : Int} (h : ValidDate y m d) (h28 : d ≤ 28) :
    addDate (y, m, d) 0 1 0 = if m = 12 then (y + 1, 1, d) else (y, m + 1, d) := by
  obtain ⟨hm1, hm2, hd1, hd2⟩ := h
  unfold addDate
  simp only []
  rw [show y + 0 = y from by omega]
  rcases eq_or_lt_of_le hm2 with h12 | h12
  · subst h12
    rw [if_pos rfl]
    have hn : monthNorm y (12 + 1) = (y + 1, 1) := by
      unfold monthNorm; simp only [Prod.mk.injEq]; constructor <;> omega
    rw [hn]
    show civilFromDays (daysFromCivil (y+1) 1 (d + 0)) = _
    rw [show d + 0 = d from by omega]
    have hv : ValidDate (y+1) 1 d := by
      refine ⟨by omega, by omega, hd1, ?_⟩
      unfold daysInMonth
      norm_num
      omega
    exact civil_roundtrip hv
  · rw [if_neg (by omega : ¬ m = 12)]
    have hn : monthNorm y (m + 1) = (y, m + 1) := monthNorm_id (by omega) (by omega)
    rw [hn]
    show civilFromDays (daysFromCivil y (m+1) (d + 0)) = _
    rw [show d + 0 = d from by omega]
    have hv : ValidDate y (m+1) d := by
      refine ⟨by omega, by omega, hd1, ?_⟩
      have : (28:Int) ≤ daysInMonth y (m+1) := by
        unfold daysInMonth
        split
        · split <;> omega
        · split <;> omega
      omega
    exact civil_roundtrip hv

theorem addDate_year {y m d : Int} (h : ValidDate y m d) :
    (addDate (y, m, d) 1 0 0).1 = y + 1 := by
  obtain ⟨hm1, hm2, hd1, hd2⟩ := h
  unfold addDate
  simp only []
  have hn : monthNorm (y + 1) (m + 0) = (y + 1, m) := by
    rw [show m + 0 = m from by omega]; exact monthNorm_id hm1 hm2
  rw [hn]
  show (civilFromDays (daysFromCivil (y+1) m (d + 0))).1 = y + 1
  rw [show d + 0 = d from by omega]
  by_cases hfeb : m = 2 ∧ d = 29 ∧ ¬ isLeap (y + 1)
  · obtain ⟨hm', hd', hL⟩ := hfeb
    rw [hm', hd', daysFromCivil_feb29 hL]
    have hv : ValidDate (y+1) 3 1 := by
      refine ⟨by omega, by omega, by omega, ?_⟩
      unfold daysInMonth; norm_num
    rw [civil_roundtrip hv]
  · have hv : ValidDate (y+1) m d := by
      refine ⟨hm1, hm2, hd1, ?_⟩
      unfold daysInMonth at hd2 ⊢
      by_cases hm2' : m = 2
      · rw [if_pos hm2'] at hd2 ⊢
        subst hm2'
        by_cases hL : isLeap (y+1)
        · rw [if_pos hL]; split at hd2 <;> omega
        · rw [if_neg hL]
          have : ¬ (d = 29) := by
            intro hd29
            exact hfeb ⟨rfl, hd29, hL⟩
          split at hd2 <;> omega
      · rw [if_neg hm2'] at hd2 ⊢
        exact hd2
    rw [civil_roundtrip hv]

/-- C8 (amended).  For every valid wall-clock date and integer offset k,
rotationDate computes: NONE = today; DAILY = today + k days; WEEKLY =
today + 7k days snapped back to the preceding Monday (a Sunday snapping
back 6 days); MONTHLY = day 01 of the month reached by advancing today one
calendar month under Go AddDate day-overflow normalization, ignoring k —
which equals the first day of the month after today whenever today's
day-of-month is at most 28; ANNUALLY = January 1 of next year, ignoring k. -/
theorem C8_rotation_clauses_amended (y m d k : Int) (h : ValidDate y m d) :
    rotationDate ROT_NONE k (y, m, d) = formatDate (y, m, d)
  ∧ rotationDate ROT_DAILY k (y, m, d) = formatDate (addDays (y, m, d) k)
  ∧ rotationDate ROT_WEEKLY k (y, m, d) = formatDate (snapToMonday (addDays (y, m, d) (7 * k)))
  ∧ (d ≤ 28 → rotationDate ROT_MONTHLY k (y, m, d) = formatDate (firstOfNextMonth (y, m, d)))
  ∧ rotationDate ROT_ANNUALLY k (y, m, d) = formatDate (y + 1, 1, 1) := by
  obtain ⟨hm1, hm2, hd1, hd2⟩ := h
  have hvalid : ValidDate y m d := ⟨hm1, hm2, hd1, hd2⟩
  refine ⟨?_, ?_, ?_, ?_, ?_⟩
  · unfold rotationDate ROT_NONE ROT_DAILY ROT_WEEKLY ROT_MONTHLY ROT_ANNUALLY
    norm_num
  · unfold rotationDate ROT_DAILY
    rw [if_pos rfl]
    rw [addDate_days (y, m, d) k hm1 hm2]
    rfl
  · unfold rotationDate ROT_WEEKLY ROT_DAILY
    rw [if_neg (by norm_num), if_pos rfl]
    simp only []
    rw [addDate_days (y, m, d) (k * 7) hm1 hm2]
    rw [show k * 7 = 7 * k from by ring]
    set shift := civilFromDays (daysFromCivil (y, m, d).1 (y, m, d).2.1 (y, m, d).2.2 + 7 * k) with hshift
    have hb := civilFromDays_m_bounds (daysFromCivil (y, m, d).1 (y, m, d).2.1 (y, m, d).2.2 + 7 * k)
    rw [← hshift] at hb
    have hsp : addDays (y, m, d) (7 * k) = shift := rfl
    unfold snapToMonday
    rw [hsp]
    by_cases hw : weekday shift = 0
    · rw [if_pos hw, if_pos hw]
      rw [addDate_days shift (-6) hb.1 hb.2]
      rfl
    · rw [if_neg hw, if_neg hw]
      rw [addDate_days shift (-(weekday shift - 1)) hb.1 hb.2]
      unfold addDays
      rw [show -(weekday shift - 1) = 1 - weekday shift from by ring]
  · intro h28
    unfold rotationDate ROT_MONTHLY ROT_DAILY ROT_WEEKLY
    rw [if_neg (by norm_num), if_neg (by norm_num), if_pos rfl]
    simp only []
    rw [addDate_month hvalid h28]
    unfold firstOfNextMonth formatDate
    rcases eq_or_lt_of_le hm2 with h12 | h12
    · subst h12
      rw [if_pos rfl, if_pos rfl]
      show pad4 (y+1) ++ "-" ++ pad2 1 ++ "-01" = _
      simp only [String.append_assoc]
      rfl
    · rw [if_neg (by omega : ¬ m = 12), if_neg (by omega : ¬ m = 12)]
      show pad4 y ++ "-" ++ pad2 (m+1) ++ "-01" = _
      simp only [String.append_assoc]
      rfl
  · unfold rotationDate ROT_ANNUALLY ROT_DAILY ROT_WEEKLY ROT_MONTHLY
    rw [if_neg (by norm_num), if_neg (by norm_num), if_neg (by norm_num), if_pos rfl]
    simp only []
    have h1 := addDate_year hvalid
    rw [h1]
    unfold formatDate
    show pad4 (y+1) ++ "-01-01" = _
    simp only [String.append_assoc]
    rfl

/- ===================== C8: rotation clock ===================== -/

set_option maxRecDepth 40000 in
/-- C8 counterexample: on today = 2025-01-31 the MONTHLY rotation date is
"2025-03-01", not the first day of the month after today (2025-02-01):
AddDate(0,1,0) normalizes January 31 + 1 month to March 3. -/
theorem C8_monthly_cex :
    rotationDate ROT_MONTHLY 0 (2025, 1, 31) = "2025-03-01"
    ∧ formatDate (firstOfNextMonth (2025, 1, 31)) = "2025-02-01"
    ∧ rotationDate ROT_MONTHLY 0 (2025, 1, 31) ≠ formatDate (firstOfNextMonth (2025, 1, 31)) := by
  refine ⟨by decide, by decide, by decide⟩

set_option maxRecDepth 40000 in
/-- C8 witness: the amended clauses evaluated on 2025-10-11. -/
theorem C8_rotation_clauses_amended_witness :
    ValidDate 2025 10 11
    ∧ rotationDate ROT_WEEKLY 1 (2025, 10, 11) = formatDate (snapToMonday (addDays (2025, 10, 11) (7 * 1)))
    ∧ rotationDate ROT_ANNUALLY 5 (2025, 10, 11) = formatDate (2025 + 1, 1, 1) :=
  ⟨by decide,
   (C8_rotation_clauses_amended 2025 10 11 1 (by decide)).2.2.1,
   (C8_rotation_clauses_amended 2025 10 11 5 (by decide)).2.2.2.2⟩

/- ===================== C9: sanitization ===================== -/

theorem replaceForbidden_idem (u : String) :
    replaceForbidden (replaceForbidden u) = replaceForbidden u := by
  obtain ⟨l⟩ := u
  unfold replaceForbidden
  congr 1
  rw [List.map_map]
  apply List.map_congr_left
  intro c _
  by_cases h : forbiddenChar c = true
  · have hsp : forbiddenChar ' ' = false := by decide
    simp [Function.comp, h, hsp]
  · simp [Function.comp] at h ⊢
    simp [h]

theorem sanitizeVal_ne_empty (s : String) : sanitizeVal s ≠ "" := by
  unfold sanitizeVal replaceForbidden
  by_cases h : s = ""
  · rw [if_pos h]
    decide
  · rw [if_neg h]
    intro hcon
    apply h
    have hdata := congrArg String.data hcon
    have hnil : s.data.map (fun c => if forbiddenChar c then ' ' else c) = [] := hdata
    have : s.data = [] := List.map_eq_nil_iff.mp hnil
    obtain ⟨l⟩ := s
    simp only [String.data] at this
    rw [this]

theorem sanitizeVal_idem (s : String) : sanitizeVal (sanitizeVal s) = sanitizeVal s := by
  have hne := sanitizeVal_ne_empty s
  rw [show sanitizeVal (sanitizeVal s)
      = replaceForbidden (if sanitizeVal s = "" then "N/A" else sanitizeVal s) from rfl]
  rw [if_neg hne]
  show replaceForbidden (replaceForbidden (if s = "" then "N/A" else s))
      = replaceForbidden (if s = "" then "N/A" else s)
  exact replaceForbidden_idem _

theorem sanitizeVal_no_forbidden (s : String) :
    ∀ c ∈ (sanitizeVal s).data, forbiddenChar c = false := by
  intro c hc
  unfold sanitizeVal replaceForbidden at hc
  have hc2 : c ∈ (if s = "" then "N/A" else s).data.map (fun c => if forbiddenChar c then ' ' else c) := hc
  obtain ⟨a, _, rfl⟩ := List.mem_map.mp hc2
  by_cases h : forbiddenChar a = true
  · simp [h]
    decide
  · simp only [Bool.not_eq_true] at h
    simp [h]

/-- C9: the sanitization mapping `correct` is idempotent; after one
application no value contains any of tab, newline, carriage return,
backspace, form feed, vertical tab; and every value that was the empty
string has become the literal N/A. -/
theorem C9_correct_idempotent_clean (e : List (Int × String)) :
    correct (correct e) = correct e
    ∧ (∀ p ∈ correct e, ∀ c ∈ p.2.data, forbiddenChar c = false)
    ∧ (∀ p ∈ e, p.2 = "" → (p.1, "N/A") ∈ correct e) := by
  refine ⟨?_, ?_, ?_⟩
  · unfold correct
    rw [List.map_map]
    apply List.map_congr_left
    intro p _
    simp [Function.comp, sanitizeVal_idem]
  · intro p hp c hc
    unfold correct at hp
    obtain ⟨q, _, rfl⟩ := List.mem_map.mp hp
    exact sanitizeVal_no_forbidden q.2 c hc
  · intro p hp h0
    unfold correct
    apply List.mem_map.mpr
    refine ⟨p, hp, ?_⟩
    have hNA : sanitizeVal "" = "N/A" := by decide
    simp only [h0, hNA]

/-- C9 witness: the clauses evaluated on a concrete entry with an empty
value and a tab-carrying value. -/
theorem C9_correct_idempotent_clean_witness :
    correct (correct [((10:Int), ""), (11, "a\tb")]) = correct [((10:Int), ""), (11, "a\tb")]
    ∧ ((10:Int), "N/A") ∈ correct [((10:Int), ""), (11, "a\tb")] :=
  ⟨(C9_correct_idempotent_clean [((10:Int), ""), (11, "a\tb")]).1,
   (C9_correct_idempotent_clean [((10:Int), ""), (11, "a\tb")]).2.2 (10, "") (by decide) rfl⟩

/- ===================== C1: Log / LogFields error contract ===================== -/

/-- C1: pushToLedger — the common body of Log and LogFields — returns a
non-nil error whose message equals the formatted message iff the resolved
code's error flag is true (an unknown code resolves with flag true and the
error is returned); otherwise it returns nil; in both cases the entry is
submitted to the ledger exactly when the logger is active, and the entry
carries the formatted message in its message column. -/
theorem C1_pushToLedger_error_contract (active : Bool) (codes : List (Int × Code))
    (ctx : LogCtx) (caller : String) (code : Int) (fmsg : String) :
    ((pushToLedger active codes ctx caller code fmsg).err = some fmsg
        ↔ (getMsgCode codes code).2 = true)
    ∧ ((pushToLedger active codes ctx caller code fmsg).err = none
        ↔ (getMsgCode codes code).2 = false)
    ∧ (codes.lookup code = none →
        (pushToLedger active codes ctx caller code fmsg).err = some fmsg)
    ∧ (pushToLedger active codes ctx caller code fmsg).submitted = active
    ∧ (pushToLedger active codes ctx caller code fmsg).entry.lookup 10 = some fmsg := by
  unfold pushToLedger
  cases h : (getMsgCode codes code).2 with
  | true =>
    refine ⟨?_, ?_, ?_, ?_, ?_⟩
    · simp
    · simp
    · intro _
      simp
    · rfl
    · simp [List.lookup]
  | false =>
    refine ⟨?_, ?_, ?_, ?_, ?_⟩
    · simp
    · simp
    · intro hl
      exfalso
      unfold getMsgCode at h
      rw [hl] at h
      simp at h
    · rfl
    · simp [List.lookup]

/-- C1 witness: code 1 is an error code, so the call returns the message
as an error; code 0 is not, so the call returns nil. -/
theorem C1_pushToLedger_error_contract_witness :
    (pushToLedger true defaultCodes demoCtx "caller1" 1 "boom").err = some "boom"
    ∧ (pushToLedger true defaultCodes demoCtx "caller1" 0 "hi").err = none :=
  ⟨(C1_pushToLedger_error_contract true defaultCodes demoCtx "caller1" 1 "boom").1.mpr
      (by decide),
   (C1_pushToLedger_error_contract true defaultCodes demoCtx "caller1" 0 "hi").2.1.mpr
      (by decide)⟩

/- ===================== C2: RawEntry required columns ===================== -/

/-- C2 (amended): RawEntry returns a "missing column" error iff one of
the nine default columns — date_nano, service, instance, the three
msg_type columns, msg, file, line — is absent from the entry; the caller
column is not required.  When all nine are present the entry is accepted
and submitted exactly when the logger is active. -/
theorem C2_RawEntry_missing_columns_amended (active : Bool) (entry : List (Int × String)) :
    ((RawEntry active entry).err ≠ none ↔ ∃ c ∈ defaultCols, entry.lookup c = none)
    ∧ ((RawEntry active entry).err = none →
        RawEntry active entry = ⟨none, active⟩) := by
  unfold RawEntry
  cases hf : defaultCols.find? (fun c => (entry.lookup c).isNone) with
  | some c =>
    have hmem := List.mem_of_find?_eq_some hf
    have hval := List.find?_some hf
    constructor
    · simp only []
      constructor
      · intro _
        exact ⟨c, hmem, by simpa using hval⟩
      · intro _
        simp
    · intro hcon
      simp at hcon
  | none =>
    rw [List.find?_eq_none] at hf
    constructor
    · simp only []
      constructor
      · intro hcon
        simp at hcon
      · rintro ⟨c, hc, hnone⟩
        have := hf c hc
        simp [hnone] at this
    · intro _
      rfl

/-- C2 counterexample: an entry carrying the nine default columns but no
caller column (6) is accepted without any error, although the claim as
stated requires a "missing column" error when the caller column is
absent. -/
theorem C2_caller_not_required_cex :
    (RawEntry true e9).err = none
    ∧ e9.lookup 6 = none
    ∧ (RawEntry true e9).submitted = true := by decide

/-- C2 witness: an entry missing the service column is rejected. -/
theorem C2_RawEntry_missing_columns_amended_witness :
    (RawEntry true eMiss).err ≠ none :=
  (C2_RawEntry_missing_columns_amended true eMiss).1.mpr ⟨4, by decide, by decide⟩

/- ===================== C3: Authorize ===================== -/

/-- C3: Authorize succeeds (returns nil) exactly when the metadata can be
extracted, the derived key is known to the token store, and the supplied
token is byte-for-byte the stored one; each failure mode yields its own
error, and the three error messages are pairwise distinct. -/
theorem C3_Authorize_contract (tokens : List (String × String))
    (md : Option (List (String × List String))) :
    (Authorize tokens md = none
        ↔ ∃ c : Caller, extractCaller md = .ok c ∧ tokens.lookup c.key = some c.token)
    ∧ (∀ e, extractCaller md = .error e →
        Authorize tokens md = some ("Authorize: cannot extract caller credentials :" ++ e))
    ∧ (∀ c : Caller, extractCaller md = .ok c → tokens.lookup c.key = none →
        Authorize tokens md = some "Authorize: unknown service/instance")
    ∧ (∀ (c : Caller) (rt : String), extractCaller md = .ok c →
        tokens.lookup c.key = some rt → rt ≠ c.token →
        Authorize tokens md = some "Authorize: bad token")
    ∧ (∀ e, ("Authorize: cannot extract caller credentials :" ++ e)
          ≠ "Authorize: unknown service/instance"
        ∧ ("Authorize: cannot extract caller credentials :" ++ e) ≠ "Authorize: bad token")
    ∧ ("Authorize: unknown service/instance" : String) ≠ "Authorize: bad token" := by
  refine ⟨?_, ?_, ?_, ?_, ?_, by decide⟩
  · unfold Authorize
    cases hex : extractCaller md with
    | error e => simp
    | ok c =>
      cases hl : tokens.lookup c.key with
      | none => simp [hl]
      | some rt =>
        by_cases ht : rt = c.token
        · subst ht
          simp [hl]
        · simp [hl, if_neg ht]
          intro hcon
          exact absurd hcon ht
  · intro e hex
    unfold Authorize
    rw [hex]
  · intro c hex hl
    unfold Authorize
    rw [hex]
    simp only [hl]
  · intro c rt hex hl ht
    unfold Authorize
    rw [hex]
    simp only [hl]
    rw [if_neg ht]
  · intro e
    constructor
    · intro hcon
      have hlen := congrArg String.length hcon
      rw [String.length_append] at hlen
      have h1 : ("Authorize: cannot extract caller credentials :" : String).length = 46 := by decide
      have h2 : ("Authorize: unknown service/instance" : String).length = 35 := by decide
      omega
    · intro hcon
      have hlen := congrArg String.length hcon
      rw [String.length_append] at hlen
      have h1 : ("Authorize: cannot extract caller credentials :" : String).length = 46 := by decide
      have h2 : ("Authorize: bad token" : String).length = 20 := by decide
      omega

/-- C3 witness: a complete metadata bag with the stored token authorizes;
a bag with a wrong token is rejected with the bad-token error. -/
theorem C3_Authorize_contract_witness :
    Authorize [("svc/inst", "tok")]
      (some [("service", ["Svc"]), ("instance", ["Inst"]),
             ("token", ["tok"]), ("ip", ["1.2.3.4"])]) = none
    ∧ Authorize [("svc/inst", "tok")]
      (some [("service", ["Svc"]), ("instance", ["Inst"]),
             ("token", ["bad"]), ("ip", ["1.2.3.4"])]) = some "Authorize: bad token" :=
  ⟨(C3_Authorize_contract [("svc/inst", "tok")] _).1.mpr
      ⟨⟨"Svc", "Inst", "svc/inst", "tok", "1.2.3.4"⟩, by decide, by decide⟩,
   (C3_Authorize_contract [("svc/inst", "tok")] _).2.2.2.1
      ⟨"Svc", "Inst", "svc/inst", "bad", "1.2.3.4"⟩ "tok" (by decide) (by decide) (by decide)⟩

/- ===================== C4: token add/remove roundtrip ===================== -/

/-- C4 (code evaluation at the failing input): starting from the empty
store, AddToken appends the line and RemoveToken deletes the in-memory
entry but leaves the on-disk file unchanged — removeTokenFromFile reads
nothing through its write-only descriptor and never truncates — so the
add/remove pair does not restore the file.  A second AddToken for the
same key fails with the key-collision error. -/
theorem C4_add_remove_not_restored :
    AddToken ⟨[], ""⟩ "s" "i" "tok0" = .ok ("tok0", ⟨[("s/i", "tok0")], "s/i\ttok0\n"⟩)
    ∧ RemoveToken ⟨[("s/i", "tok0")], "s/i\ttok0\n"⟩ "s" "i" = .ok ⟨[], "s/i\ttok0\n"⟩
    ∧ ("s/i\ttok0\n" : String) ≠ ""
    ∧ AddToken ⟨[("s/i", "tok0")], "s/i\ttok0\n"⟩ "s" "i" "tok1"
        = .error "AddToken: token for s/i already exists" := by decide

/- ===================== C5: code resolution ===================== -/

/-- C5 counterexample: resolving a code absent from the table (5) yields
the source's misspelled literal "UNKOWN", not the symbolic name "UNKNOWN"
the claim states. -/
theorem C5_unknown_spelling_cex :
    getMsgCode defaultCodes 5 = ("UNKOWN", true)
    ∧ ("UNKOWN" : String) ≠ "UNKNOWN" := by decide

/-- C5 (amended): every code not present in the codes table resolves to
the symbolic name "UNKOWN" (the source's literal) with error flag true;
every code of the default table resolves to its documented pair — the
seven named rows of the specification, error=false on the 100..226 and
300..308 ranges, error=true on 400..451, 500..511 and 999. -/
theorem C5_resolution_amended :
    (∀ c : Int, defaultCodes.lookup c = none →
        getMsgCode defaultCodes c = ("UNKOWN", true))
    ∧ (∀ p ∈ specNamedCodes, getMsgCode defaultCodes p.1 = (p.2.1, p.2.2))
    ∧ (∀ p ∈ defaultCodes,
        ((100 ≤ p.1 ∧ p.1 ≤ 226) ∨ (300 ≤ p.1 ∧ p.1 ≤ 308)) → p.2.error = false)
    ∧ (∀ p ∈ defaultCodes,
        ((400 ≤ p.1 ∧ p.1 ≤ 451) ∨ (500 ≤ p.1 ∧ p.1 ≤ 511) ∨ p.1 = 999) →
          p.2.error = true) := by
  refine ⟨?_, by decide, by decide, by decide⟩
  intro c hc
  unfold getMsgCode
  rw [hc]

/-- C5 witness: code 7 is absent from the default table and resolves to
("UNKOWN", true). -/
theorem C5_resolution_amended_witness :
    defaultCodes.lookup 7 = none ∧ getMsgCode defaultCodes 7 = ("UNKOWN", true) :=
  ⟨by decide, C5_resolution_amended.1 7 (by decide)⟩

/- ===================== C6: sanitization before serialization ===================== -/

/-- C6 (code evaluation at the failing input): the writer serializes the
ledger entry as it is — correct has no call site — so a value carrying a
raw tab is emitted verbatim in the tab serialization and placed verbatim
into the JSON object, while a sanitized entry would have produced the
space-substituted line.  The claim that the sanitization pass runs before
either serialization fails on this entry. -/
theorem C6_sanitize_not_applied :
    (writeEntry ⟨true, true, false, [10]⟩ eTab).stdoutLine = some "a\tb\t\n"
    ∧ (writeEntry ⟨true, true, false, [10]⟩ eTab).fileTabLine = some "a\tb\t\n"
    ∧ (writeEntry ⟨false, true, true, [10]⟩ eTab).fileJSONObj = some [("Message", "a\tb")]
    ∧ toStr (correct eTab) [10] = "a b\t"
    ∧ ("a\tb\t\n" : String) ≠ "a b\t\n" := by decide

/- ===================== C7: aggregation ordering ===================== -/

/-- C7 (code evaluation at the failing input): with two services of
distinct shares 1/4 and 3/4 whose statistics iterate smaller-share first,
AggregateServiceStatistics returns the services in that insertion order —
its final loop indexes serviceNames by the loop counter instead of the
sort permutation — so the returned list is not ordered by descending
share. -/
theorem C7_aggregate_not_sorted :
    (AggregateServiceStatistics demoStats).1 = 400
    ∧ (AggregateServiceStatistics demoStats).2.map (fun a => (a.service, a.volume))
        = [("a", 100), ("b", 300)]
    ∧ (AggregateServiceStatistics demoStats).2.map (fun a => a.share) = [1/4, 3/4]
    ∧ ((1 : ℚ)/4 < 3/4) := by
  refine ⟨by decide, by decide, ?_, by norm_num⟩
  have h : (AggregateServiceStatistics demoStats).2.map (fun a => a.share)
      = [((100 : Int) : ℚ) / ((400 : Int) : ℚ), ((300 : Int) : ℚ) / ((400 : Int) : ℚ)] := by rfl
  rw [h]
  norm_num

/- ===================== C10: shared default codes table ===================== -/

theorem lookup_map_update (k : Int) (v : Code) :
    ∀ m : List (Int × Code), (m.lookup k).isSome →
      (m.map (fun p => if p.1 = k then (k, v) else p)).lookup k = some v := by
  intro m
  induction m with
  | nil => intro h; simp at h
  | cons p t ih =>
    obtain ⟨a, b⟩ := p
    intro h
    by_cases hk : a = k
    · subst hk
      rw [List.map_cons]
      rw [show (if ((a, b) : Int × Code).1 = a then ((a, v) : Int × Code) else (a, b)) = (a, v) from by simp]
      simp [List.lookup]
    · have hne : (k == a) = false := by simp [Ne.symm hk]
      have h2 : (t.lookup k).isSome := by
        simpa [List.lookup, hne] using h
      rw [List.map_cons]
      rw [show (if ((a, b) : Int × Code).1 = k then ((k, v) : Int × Code) else (a, b)) = (a, b) from by simp [hk]]
      simp only [List.lookup, hne]
      exact ih h2

theorem lookup_append_new (k : Int) (v : Code) :
    ∀ m : List (Int × Code), m.lookup k = none → (m ++ [(k, v)]).lookup k = some v := by
  intro m
  induction m with
  | nil => intro _; simp [List.lookup, beq_self_eq_true]
  | cons p t ih =>
    obtain ⟨a, b⟩ := p
    intro h
    by_cases hk : a = k
    · subst hk
      simp [List.lookup, beq_self_eq_true] at h
    · have hne : (k == a) = false := by simp [Ne.symm hk]
      have h2 : t.lookup k = none := by
        simpa [List.lookup, hne] using h
      simp only [List.cons_append, List.lookup, hne]
      exact ih h2

theorem lookup_setCode (k : Int) (v : Code) (m : List (Int × Code)) :
    (setCode m k v).lookup k = some v := by
  unfold setCode
  by_cases h : (m.lookup k).isSome
  · rw [if_pos h]
    exact lookup_map_update k v m h
  · rw [if_neg h]
    apply lookup_append_new
    rw [← Option.not_isSome_iff_eq_none]
    simpa using h

theorem getD_set_zero {α : Type} (l : List α) (m d : α) (h : l ≠ []) :
    (l.set 0 m).getD 0 d = m := by
  cases l with
  | nil => exact absurd rfl h
  | cons a t => rfl

/-- C10: every logger created by New stores a reference to the single
process-wide default codes table; UseCustomCodes through one logger
therefore changes code resolution for every other logger in the process,
not only for the receiver. -/
theorem C10_shared_codes (h0 : CodesHeap) (hne : h0.cells ≠ []) (c : Int) (C : Code)
    (h1 : 1 < c) (h2 : c < 999) :
    (journalNew h0).1.codesRef = (journalNew (journalNew h0).2).1.codesRef
    ∧ getMsgCodeOf
        (UseCustomCodes (journalNew (journalNew h0).2).2 (journalNew h0).1 [(c, C)])
        (journalNew (journalNew h0).2).1 c = (C.typeStr, C.error) := by
  refine ⟨rfl, ?_⟩
  unfold getMsgCodeOf UseCustomCodes journalNew heapWrite heapRead defaultCodesRef
  simp only [List.foldl]
  rw [if_pos ⟨h1, h2⟩]
  rw [getD_set_zero _ _ _ hne]
  unfold getMsgCode
  rw [lookup_setCode]

/-- C10 witness: registering the custom code 42 through one fresh logger
is visible when a second fresh logger resolves 42. -/
theorem C10_shared_codes_witness :
    getMsgCodeOf
      (UseCustomCodes (journalNew (journalNew initialCodesHeap).2).2
        (journalNew initialCodesHeap).1 [(42, ⟨false, "MyInfo"⟩)])
      (journalNew (journalNew initialCodesHeap).2).1 42 = ("MyInfo", false) :=
  (C10_shared_codes initialCodesHeap (by decide) 42 ⟨false, "MyInfo"⟩
    (by decide) (by decide)).2
